import Mathlib

/-!
Verification development for the codex-remote Command Relay Engine.

Shallow embedding of the Feishu and Email channel adapters:
  - `src/channels/feishu/feishu.js` (class `FeishuChannel` plus a second,
    embedded copy of `FeishuWebhookHandler` — the `FJ` namespace below),
  - `src/channels/feishu/webhook.js` (class `FeishuWebhookHandler` — the
    `WH` namespace below),
  - `src/channels/email/smtp.js` (class `EmailChannel`).

Conventions of the embedding:
  - `Date.now()` is an explicit `now : Nat` parameter (milliseconds).
  - The session directory (one JSON file `feishu_<token>.json` per token) is a
    `List (String × FeishuSession)` associating each token to its record;
    file deletion is list filtering, `fs.existsSync`/read is `List.lookup`.
  - The external `ControllerInjector.injectCommand(command, session)` call is
    a parameter `inject : String → String → Bool` giving the delivery result;
    every performed call is also recorded in an `injections` list so theorems
    can talk about which commands were delivered to which tmux session.
  - Outbound messages produced through `_sendResponse` are collected as a
    `List String` of the texts sent back through the channel.
  - JavaScript truthiness on strings (empty string is falsy) is modelled
    explicitly where the source relies on it.
-/

namespace CodexRemote

/-- A Feishu session record, exactly the fields written by
`FeishuChannel._saveSession` (feishu.js lines 165-179): token, creation
timestamp, `expiresAt = now + 24h`, channel name, receiver id and type, and
the optional conversation context (of which only the `.session` tmux-session
name is ever read, via `conversationContext?.session`). Note the record has
no `commandCount`, `maxCommands` or `status` field. -/
structure FeishuSession where
  token : String
  timestamp : Nat
  expiresAt : Nat
  channel : String
  receiveId : String
  receiveType : String
  conversationContext : Option String
  deriving Repr, DecidableEq

/-- The sessions directory: one entry per stored `feishu_<token>.json` file,
keyed by token (file names are unique paths). -/
abbrev SessionStore := List (String × FeishuSession)

/-- Deleting the session file of a token (`fs.unlinkSync`). -/
def eraseSession (store : SessionStore) (token : String) : SessionStore :=
  store.filter (fun p => p.1 != token)

/-- `FeishuChannel._saveSession` (feishu.js 165-179): writes the record for
`token` with `timestamp = Date.now()` and `expiresAt = Date.now() + 24h`. -/
def saveSession (store : SessionStore) (now : Nat) (token : String)
    (receiveId receiveType : String) (ctx : Option String) : SessionStore :=
  let info : FeishuSession :=
    { token := token
      timestamp := now
      expiresAt := now + 24 * 60 * 60 * 1000
      channel := "feishu"
      receiveId := receiveId
      receiveType := receiveType
      conversationContext := ctx }
  (token, info) :: eraseSession store token

/-- `FeishuChannel._loadSession` (feishu.js 451-472): returns the record if
the file exists and `Date.now() > expiresAt` is false; when
`Date.now() > expiresAt` it unlinks the file and returns null.  The
comparison is strict, so a record with `expiresAt = now` is still returned. -/
def loadSession (store : SessionStore) (now : Nat) (token : String) :
    Option FeishuSession × SessionStore :=
  match List.lookup token store with
  | none => (none, store)
  | some s =>
    if s.expiresAt < now then (none, eraseSession store token)
    else (some s, store)

/-! ## The command parser

`FeishuChannel._parseCommand` (feishu.js 424-444) runs the two JavaScript
regexes `/\/cmd\s+([A-Z0-9]{8})\s+(.+)/i` and `/Token\s+([A-Z0-9]{8})\s+(.+)/i`
against the text and returns the capture groups of the first one that
matches (`/cmd` first).  The matcher below implements exactly these two
patterns with JavaScript regex semantics: unanchored leftmost search,
case-insensitive keyword, `[A-Z0-9]` under the `i` flag (so any ASCII
letter or digit), greedy `\s+` with backtracking before the final `(.+)`
(`.` matches everything except a newline), and `.trim()` on the command
capture. -/

/-- JavaScript `\s` on the characters relevant here (space, tab, CR, LF). -/
def isWsJS (c : Char) : Bool :=
  c = ' ' || c = '\t' || c = '\r' || c = '\n'

/-- JavaScript `String.prototype.trim()`: strips leading and trailing
whitespace. -/
def trimJS (s : String) : String :=
  String.mk (((s.toList.dropWhile isWsJS).reverse.dropWhile isWsJS).reverse)

/-- Case-insensitive literal match of `kw` at the head of `l`; returns the
remainder on success. -/
def matchLiteralCI : List Char → List Char → Option (List Char)
  | [], rest => some rest
  | _ :: _, [] => none
  | k :: ks, c :: cs =>
    if k.toLower = c.toLower then matchLiteralCI ks cs else none

/-- Splits a maximal run of whitespace: returns its length and the rest. -/
def skipWs : List Char → Nat × List Char
  | [] => (0, [])
  | c :: cs =>
    if isWsJS c then
      let (n, r) := skipWs cs
      (n + 1, r)
    else (0, c :: cs)

/-- Matches `[A-Za-z0-9]{n}` at the head; returns the token and the rest. -/
def takeAlnum : Nat → List Char → Option (List Char × List Char)
  | 0, l => some ([], l)
  | _ + 1, [] => none
  | n + 1, c :: cs =>
    if c.isAlphanum then
      match takeAlnum n cs with
      | some (t, r) => some (c :: t, r)
      | none => none
    else none

/-- The final `.+` of the pattern: at least one character, `.` not matching
a newline; as the last greedy element its capture is the maximal run of
non-newline characters from the current position. -/
def dotPlus : List Char → Option (List Char)
  | [] => none
  | c :: cs => if c = '\n' then none else some (c :: cs.takeWhile (fun d => d != '\n'))

/-- Backtracking for the trailing `\s+(.+)`: the engine first gives `\s+` its
maximal run `v` and shrinks it until `(.+)` can match. -/
def tailCapture (rest : List Char) : Option (List Char) :=
  let v := (skipWs rest).1
  go v
where
  go : Nat → Option (List Char)
    | 0 => none
    | t + 1 =>
      match dotPlus (rest.drop (t + 1)) with
      | some cap => some cap
      | none => go t

/-- Tries the whole pattern `kw\s+([A-Za-z0-9]{8})\s+(.+)` at this start
position. -/
def matchAt (kw : List Char) (l : List Char) : Option (String × String) :=
  match matchLiteralCI kw l with
  | none => none
  | some r1 =>
    let (w, r2) := skipWs r1
    if w = 0 then none
    else
      match takeAlnum 8 r2 with
      | none => none
      | some (tok, r3) =>
        match tailCapture r3 with
        | none => none
        | some cap => some (String.mk tok, trimJS (String.mk cap))

/-- Unanchored leftmost regex search for the pattern with keyword `kw`. -/
def searchPattern (kw : String) (text : String) : Option (String × String) :=
  go text.toList
where
  go : List Char → Option (String × String)
    | [] => none
    | c :: cs =>
      match matchAt kw.toList (c :: cs) with
      | some r => some r
      | none => go cs

/-- A parsed command, the `{ token, command }` object. -/
structure Parsed where
  token : String
  command : String
  deriving Repr, DecidableEq

/-- `FeishuChannel._parseCommand` (feishu.js 424-444). -/
def parseCommand (text : String) : Option Parsed :=
  match searchPattern "/cmd" text with
  | some (t, c) => some ⟨t, c⟩
  | none =>
    match searchPattern "Token" text with
    | some (t, c) => some ⟨t, c⟩
    | none => none

/-! ## Configuration, senders, and the channel orchestrator -/

/-- The pieces of `this.config` the relay code reads.  Absent-or-empty string
fields (falsy in JavaScript) are `none`. -/
structure Config where
  verificationToken : Option String
  whitelist : List String
  userId : Option String
  groupId : Option String
  deriving Repr, DecidableEq

/-- A webhook sender: `sender.sender_id.user_id` and `sender.sender_id.open_id`
(absent or empty string is `none`). -/
structure Sender where
  userId : Option String
  openId : Option String
  deriving Repr, DecidableEq

/-- `sender.sender_id.user_id || sender.sender_id.open_id`. -/
def senderIdOf (s : Sender) : Option String :=
  s.userId <|> s.openId

/-- `FeishuWebhookHandler._validateSender` (webhook.js 290-300, identical at
feishu.js 961-971): when a non-empty whitelist is configured, the sender id
must be present and whitelisted; otherwise every sender is accepted. -/
def validateSender (cfg : Config) (sender : Sender) : Bool :=
  if cfg.whitelist.length > 0 then
    match senderIdOf sender with
    | none => false
    | some id => cfg.whitelist.contains id
  else true

/-- Result of a channel-level or handler-level step: the ok flag, the session
store afterwards, and the `(command, tmuxSession)` injector calls made. -/
structure CmdResult where
  ok : Bool
  store : SessionStore
  injections : List (String × String)
  deriving Repr, DecidableEq

/-- `FeishuChannel.handleCommand` (feishu.js 480-516): parses the incoming
text with `_parseCommand` (returning false on no match), loads the session of
the parsed token with `_loadSession` (returning false when absent or
expired), then injects the parsed command into
`session.conversationContext?.session || 'claude-session'` and returns the
injector's result.  No command counter is read, written, or checked. -/
def channelHandleCommand (inject : String → String → Bool)
    (store : SessionStore) (now : Nat) (command : String) : CmdResult :=
  match parseCommand command with
  | none => ⟨false, store, []⟩
  | some p =>
    match loadSession store now p.token with
    | (none, store1) => ⟨false, store1, []⟩
    | (some s, store1) =>
      let sessionName := s.conversationContext.getD "claude-session"
      ⟨inject p.command sessionName, store1, [(p.command, sessionName)]⟩

/-- Output of a webhook-handler step: the response texts sent back through
the channel via `_sendResponse`, the session store afterwards, and the
injector calls made. -/
structure HandlerOut where
  responses : List String
  store : SessionStore
  injections : List (String × String)
  deriving Repr, DecidableEq

/-! ## The `webhook.js` handler (namespace `WH`) -/

namespace WH

/-- `FeishuWebhookHandler._handleCommand` (webhook.js 307-322): forwards
`parsedCommand.command` — only the command text, without the token — to
`FeishuChannel.handleCommand`, then acknowledges success or failure. -/
def handleCommand (inject : String → String → Bool) (store : SessionStore)
    (now : Nat) (p : Parsed) : HandlerOut :=
  let r := channelHandleCommand inject store now p.command
  if r.ok then ⟨["✅ 命令执行成功"], r.store, r.injections⟩
  else ⟨["❌ 命令执行失败，请检查token是否有效"], r.store, r.injections⟩

/-- `FeishuWebhookHandler._findActiveSession` (webhook.js 361-391, identical
at feishu.js 1044-1074): walks the `feishu_*` session files in directory
order, unlinking any file with `Date.now() > expiresAt`, and returns the
first remaining record with `receiveId === senderId`. -/
def findActiveSession (now : Nat) (senderId : Option String) :
    SessionStore → Option FeishuSession × SessionStore
  | [] => (none, [])
  | (k, s) :: rest =>
    if s.expiresAt < now then findActiveSession now senderId rest
    else if some s.receiveId = senderId then (some s, (k, s) :: rest)
    else
      let r := findActiveSession now senderId rest
      (r.1, (k, s) :: r.2)

/-- `FeishuWebhookHandler._handleDirectCommand` (webhook.js 329-354,
identical at feishu.js 1012-1037): resolves the sender's active session; if
one exists it calls `FeishuChannel.handleCommand` on the raw text and
acknowledges the result, otherwise it sends the no-session help message. -/
def handleDirectCommand (inject : String → String → Bool)
    (store : SessionStore) (now : Nat) (command : String) (sender : Sender) :
    HandlerOut :=
  let senderId := senderIdOf sender
  match findActiveSession now senderId store with
  | (some _, store1) =>
    let r := channelHandleCommand inject store1 now command
    if r.ok then ⟨["✅ 命令执行成功"], r.store, r.injections⟩
    else ⟨["❌ 命令执行失败"], r.store, r.injections⟩
  | (none, store1) => ⟨["❌ 无有效的会话，请先等待Claude完成任务后回复"], store1, []⟩

/-- `FeishuWebhookHandler._handleTextMessage` (webhook.js 221-252): trims the
text, drops the event entirely when `_validateSender` fails (only a log
line — no response is sent), and otherwise routes through `_parseCommand` to
`_handleCommand` or `_handleDirectCommand`. -/
def handleTextMessage (cfg : Config) (inject : String → String → Bool)
    (store : SessionStore) (now : Nat) (text : String) (sender : Sender) :
    HandlerOut :=
  let t := trimJS text
  if ¬ validateSender cfg sender then ⟨[], store, []⟩
  else
    match parseCommand t with
    | some p => handleCommand inject store now p
    | none => handleDirectCommand inject store now t sender

end WH

/-! ## The webhook handler embedded in `feishu.js` (namespace `FJ`)

`feishu.js` contains, after `FeishuChannel`, a second copy of
`FeishuWebhookHandler`.  It differs from `webhook.js` in three ways: its
`_handleCommand` (feishu.js 978-1005) loads the session by the parsed token
directly and injects the parsed command (no re-parse); its `_handleWebhook`
(feishu.js 776-855) has the signature-verification call commented out
(`TEMPORARY: Disable signature verification for testing`); and it dispatches
`card.action.trigger` events to `_handleCardAction` (feishu.js 1132-1249). -/

namespace FJ

/-- `FeishuWebhookHandler._handleCommand` as embedded in feishu.js 978-1005:
loads the session of `token` via `FeishuChannel._loadSession` (responding
with the invalid-token message when absent or expired), then injects
`command` into `session.conversationContext?.session || 'claude-session'`
and acknowledges the injector's result. -/
def handleCommand (inject : String → String → Bool) (store : SessionStore)
    (now : Nat) (token command : String) : HandlerOut :=
  match loadSession store now token with
  | (none, store1) => ⟨["❌ 无效的会话令牌"], store1, []⟩
  | (some s, store1) =>
    let sessionName := s.conversationContext.getD "claude-session"
    if inject command sessionName then
      ⟨["✅ 命令执行成功"], store1, [(command, sessionName)]⟩
    else
      ⟨["❌ 命令执行失败"], store1, [(command, sessionName)]⟩

/-- `FeishuWebhookHandler._handleTextMessage` as embedded in feishu.js
892-923: same shape as the webhook.js copy, but a parsed command goes to the
feishu.js `_handleCommand` above. -/
def handleTextMessage (cfg : Config) (inject : String → String → Bool)
    (store : SessionStore) (now : Nat) (text : String) (sender : Sender) :
    HandlerOut :=
  let t := trimJS text
  if ¬ validateSender cfg sender then ⟨[], store, []⟩
  else
    match parseCommand t with
    | some p => handleCommand inject store now p.token p.command
    | none => WH.handleDirectCommand inject store now t sender

/-- A form-field value as Feishu delivers it: either the object format
`{ value: "..." }` or the plain string format. -/
inductive FormVal where
  | obj (value : String)
  | str (s : String)
  deriving Repr, DecidableEq

/-- The `action` object of a `card.action.trigger` event: the button value
`{ cmd, token, command }` (absent or empty strings are `none`), the form
data under `form_values` or `form_value`, and the `tag` / `action_type`
discriminators. -/
structure CardValue where
  cmd : Option String
  token : Option String
  command : Option String
  deriving Repr, DecidableEq

structure CardAction where
  value : Option CardValue
  formValues : Option (List (String × FormVal))
  formValue : Option (List (String × FormVal))
  tag : Option String
  actionType : Option String
  deriving Repr, DecidableEq

/-- JavaScript truthiness of an optional string field. -/
def truthy : Option String → Bool
  | none => false
  | some s => s ≠ ""

/-- One iteration body of the `possibleFields` loop in `_handleCardAction`
(feishu.js 1185-1198): `formData[field].value` truthy takes the object
branch, otherwise a string field takes the string branch; a field present
but with neither (an object with empty `value`) sets nothing and the loop
continues. -/
def fieldCmd : FormVal → Option String
  | .obj value => if value ≠ "" then some (trimJS value) else none
  | .str s => if s ≠ "" then some (trimJS s) else none

/-- The ordered `['command_input', 'command', 'input']` search with `break`
on the first field that assigns a command. -/
def searchFields : List String → List (String × FormVal) → Option String
  | [], _ => none
  | f :: fs, fd =>
    match List.lookup f fd with
    | some fv =>
      match fieldCmd fv with
      | some c => some c
      | none => searchFields fs fd
    | none => searchFields fs fd

/-- The first-available-field fallback of `_handleCardAction` (feishu.js
1201-1215), entered when the named-field loop assigned nothing (or an empty
string). -/
def firstFieldCmd : List (String × FormVal) → String
  | [] => ""
  | (_, fv) :: _ =>
    match fv with
    | .obj value => if value ≠ "" then trimJS value else ""
    | .str s => if s = "" then "" else trimJS s

/-- The `customCommand` computation of `_handleCardAction` for the
form-submission branch (feishu.js 1166-1226). -/
def extractFormCommand (action : CardAction) (v : CardValue) : String :=
  match action.formValues <|> action.formValue with
  | some fd =>
    let fromFields := (searchFields ["command_input", "command", "input"] fd).getD ""
    if fromFields ≠ "" then fromFields else firstFieldCmd fd
  | none =>
    if action.tag = some "form_submit" ∨ action.actionType = some "form_submit" then ""
    else
      match v.command with
      | some c => if c ≠ "" then c else ""
      | none => ""

/-- `FeishuWebhookHandler._handleCardAction` (feishu.js 1132-1249).  The
sender is only read from `event.event.operator.sender_id` (with a fallback
built from `this.config.userId || this.config.groupId`) to address the
response; `_validateSender` is never called and `this.config.whitelist` is
never read on this path.  With `cmd === '/cmd'`, a truthy token and a truthy
command, the button branch runs `_handleCommand`; with a truthy token only,
the form branch extracts `customCommand` and runs `_handleCommand` on it
when non-empty, else sends the invalid-input message; any other `cmd` or a
falsy token does nothing. -/
def handleCardAction (cfg : Config) (inject : String → String → Bool)
    (store : SessionStore) (now : Nat) (act : Option CardAction) : HandlerOut :=
  match act with
  | none => ⟨[], store, []⟩
  | some action =>
    match action.value with
    | none => ⟨[], store, []⟩
    | some v =>
      let _defaultSenderId := cfg.userId <|> cfg.groupId
      if v.cmd = some "/cmd" ∧ truthy v.token ∧ truthy v.command then
        handleCommand inject store now (v.token.getD "") (v.command.getD "")
      else if v.cmd = some "/cmd" ∧ truthy v.token then
        let customCommand := extractFormCommand action v
        if customCommand ≠ "" then
          handleCommand inject store now (v.token.getD "") customCommand
        else ⟨["❌ 请输入有效的指令"], store, []⟩
      else ⟨[], store, []⟩

/-- The webhook event body as far as the handler reads it. -/
structure WebhookEvent where
  urlVerification : Bool
  challenge : String
  eventType : Option String
  msgType : Option String
  text : Option String
  sender : Option Sender
  cardAction : Option CardAction
  deriving Repr, DecidableEq

/-- The HTTP response of `_handleWebhook`. -/
inductive HttpResponse where
  | challengeEcho (c : String)
  | unauthorized
  | okResp
  deriving Repr, DecidableEq

/-- `_handleMessage` (feishu.js 861-885): dispatch on `msg_type`; only the
text branch is modelled with content (the interactive branch reads
`message.action`, which inbound `im.message.receive_v1` messages do not
carry, and unsupported types are ignored). -/
def handleMessage (cfg : Config) (inject : String → String → Bool)
    (store : SessionStore) (now : Nat) (ev : WebhookEvent) : HandlerOut :=
  if ev.msgType = some "text" then
    match ev.text, ev.sender with
    | some t, some snd => handleTextMessage cfg inject store now t snd
    | _, _ => ⟨[], store, []⟩
  else ⟨[], store, []⟩

/-- `FeishuWebhookHandler._handleWebhook` as embedded in feishu.js 776-855.
A `url_verification` body echoes the challenge before any check.  When a
verification token is configured and the event is `im.message.receive_v1`,
a missing signature header yields 401 — but the call to `_verifySignature`
is commented out in the source (`TEMPORARY: Skipping signature verification
for testing`), so any present signature value is accepted unexamined.  The
event is then dispatched and the handler responds ok. -/
def handleWebhook (cfg : Config) (inject : String → String → Bool)
    (store : SessionStore) (now : Nat) (ev : WebhookEvent)
    (signature : Option String) : HttpResponse × HandlerOut :=
  if ev.urlVerification then (.challengeEcho ev.challenge, ⟨[], store, []⟩)
  else if cfg.verificationToken.isSome ∧ ev.eventType = some "im.message.receive_v1"
      ∧ signature = none then
    (.unauthorized, ⟨[], store, []⟩)
  else if ev.eventType = some "im.message.receive_v1" then
    (.okResp, handleMessage cfg inject store now ev)
  else if ev.eventType = some "card.action.trigger" then
    (.okResp, handleCardAction cfg inject store now ev.cardAction)
  else (.okResp, ⟨[], store, []⟩)

end FJ

/-! ## Token generators

`FeishuChannel._generateSessionToken` (feishu.js 156-158) is
`Math.random().toString(36).substring(2, 10).toUpperCase()`.
`Number.prototype.toString(36)` prints the shortest base-36 representation
of the random value in `[0, 1)`: `"0." ++ digits` with no trailing zero
digits (and just `"0"` for zero).  `substring(2, 10)` is therefore the first
(up to) eight fractional base-36 digits.  The embedding takes the digit list
of that shortest representation as the outcome of the random source. -/

/-- The base-36 digit characters `0-9a-z` after `.toUpperCase()`. -/
def base36UpperChar (d : Fin 36) : Char :=
  if d.val < 10 then Char.ofNat ('0'.toNat + d.val)
  else Char.ofNat ('A'.toNat + (d.val - 10))

/-- `FeishuChannel._generateSessionToken` on a random value whose shortest
base-36 fractional expansion is `frac` (no trailing zeros). -/
def generateSessionToken (frac : List (Fin 36)) : String :=
  String.mk ((frac.take 8).map base36UpperChar)

/-- The alphabet of `EmailChannel._generateToken` (smtp.js 35-43). -/
def emailTokenChars : List Char :=
  "ABCDEFGHIJKLMNOPQRSTUVWXYZ0123456789".toList

/-- `EmailChannel._generateToken` (smtp.js 35-43): eight independent draws
`Math.floor(Math.random() * chars.length)` indexing into the alphabet. -/
def emailGenerateToken (picks : Fin 8 → Fin 36) : String :=
  String.mk (((List.finRange 8).map picks).map (fun d => emailTokenChars.get ⟨d.val, by simp [emailTokenChars]⟩))

/-- The character class `[A-Z0-9]` of the spec's token format. -/
def isTokenChar (c : Char) : Bool :=
  ('A' ≤ c ∧ c ≤ 'Z') ∨ ('0' ≤ c ∧ c ≤ '9')

/-! ## The email channel (`smtp.js`)

`EmailChannel._createSession` (smtp.js 142-198) writes two stores: the
per-session file `sessions/<sessionId>.json` and the token-keyed entry in
`data/session-map.json`.  `_removeSession` (smtp.js 200-206) deletes only
the per-session file.  The record fields not needed by the claims
(timestamps, cwd, notification echo, template data) are kept to the ones the
claims speak about. -/

/-- The budget-relevant fields of the email session record (smtp.js
143-160): note `commandCount: 0, maxCommands: 10, status: 'waiting'` are
written at creation. -/
structure EmailSession where
  id : String
  token : String
  expiresAt : Nat
  status : String
  commandCount : Nat
  maxCommands : Nat
  deriving Repr, DecidableEq

/-- A `session-map.json` entry (smtp.js 179-187), keyed by token. -/
structure MapEntry where
  sessionId : String
  tmuxSession : String
  expiresAt : Nat
  deriving Repr, DecidableEq

/-- The two persisted stores the email channel writes. -/
structure EmailState where
  sessions : List (String × EmailSession)
  sessionMap : List (String × MapEntry)
  deriving Repr, DecidableEq

/-- `EmailChannel._createSession` (smtp.js 142-198): writes the session file
(keyed by sessionId) and upserts `sessionMap[token]`. -/
def emailCreateSession (st : EmailState) (now : Nat) (sessionId token tmuxSession : String) :
    EmailState :=
  let record : EmailSession :=
    { id := sessionId
      token := token
      expiresAt := (now + 24 * 60 * 60 * 1000) / 1000
      status := "waiting"
      commandCount := 0
      maxCommands := 10 }
  let entry : MapEntry :=
    { sessionId := sessionId
      tmuxSession := tmuxSession
      expiresAt := (now + 24 * 60 * 60 * 1000) / 1000 }
  { sessions := (sessionId, record) :: st.sessions.filter (fun p => p.1 != sessionId)
    sessionMap := (token, entry) :: st.sessionMap.filter (fun p => p.1 != token) }

/-- `EmailChannel._removeSession` (smtp.js 200-206): unlinks only
`sessions/<sessionId>.json`; the `session-map.json` entry is untouched. -/
def emailRemoveSession (st : EmailState) (sessionId : String) : EmailState :=
  { st with sessions := st.sessions.filter (fun p => p.1 != sessionId) }

/-- `EmailChannel._sendImpl` (smtp.js 87-140): creates the session (file and
map entry), then sends the mail; on send failure it calls `_removeSession`
and returns false.  `sendOk` is the outcome of the external
`transporter.sendMail` call. -/
def emailSendImpl (st : EmailState) (now : Nat) (sessionId token tmuxSession : String)
    (sendOk : Bool) : Bool × EmailState :=
  let st1 := emailCreateSession st now sessionId token tmuxSession
  if sendOk then (true, st1) else (false, emailRemoveSession st1 sessionId)

/-- `FeishuChannel._sendImpl` (feishu.js 380-391): `_formatMessage` saves the
session (via `_saveSession`) before `_sendMessage` runs; the send result is
returned as-is and no cleanup happens on failure.  `sendOk` is the outcome
of the external Feishu API call. -/
def feishuSendImpl (store : SessionStore) (now : Nat) (token : String)
    (receiveId receiveType : String) (sendOk : Bool) : Bool × SessionStore :=
  let store1 := saveSession store now token receiveId receiveType (some "claude-session")
  (sendOk, store1)

/-- Repeats `FeishuChannel.handleCommand` on the same inbound text `n`
times, threading the store, and collects the per-call results. -/
def runCommands (inject : String → String → Bool) (now : Nat) (cmd : String) :
    Nat → SessionStore → List Bool × SessionStore
  | 0, st => ([], st)
  | n + 1, st =>
    let r := channelHandleCommand inject st now cmd
    let (bs, st1) := runCommands inject now cmd n r.store
    (r.ok :: bs, st1)

/-! ## Concrete fixtures used by the claim theorems and witnesses -/

/-- A live session for token `ABCD1234`, receiver `U1`, bound to tmux
session `claude-session`, expiring at t = 1000000. -/
def sess1 : FeishuSession :=
  ⟨"ABCD1234", 0, 1000000, "feishu", "U1", "user", some "claude-session"⟩

/-- A store holding exactly `sess1`. -/
def store1 : SessionStore := [("ABCD1234", sess1)]

/-- A configuration with a verification token and an empty whitelist. -/
def cfg0 : Config := ⟨some "secret-token", [], some "U1", none⟩

/-- The same configuration with sender `U1` whitelisted. -/
def cfgW : Config := ⟨some "secret-token", ["U1"], some "U1", none⟩

/-- An injector whose delivery always succeeds. -/
def injAlways : String → String → Bool := fun _ _ => true

/-- The whitelisted sender. -/
def sndU1 : Sender := ⟨some "U1", none⟩

/-- A sender outside the whitelist. -/
def sndU2 : Sender := ⟨some "U2", none⟩

/-- An inbound `im.message.receive_v1` text event carrying the command
`/cmd ABCD1234 ls -la`, sent by `U1`. -/
def ev1 : FJ.WebhookEvent :=
  ⟨false, "", some "im.message.receive_v1", some "text",
   some "/cmd ABCD1234 ls -la", some sndU1, none⟩

/-! ## Auxiliary lemmas -/

/-- Looking up a token in a store from which it was erased finds nothing. -/
theorem lookup_eraseSession (store : SessionStore) (token : String) :
    List.lookup token (eraseSession store token) = none := by
  induction store with
  | nil => rfl
  | cons p rest ih =>
    by_cases h : p.1 = token
    · simpa [eraseSession, h] using ih
    · simp only [eraseSession, List.filter] at ih ⊢
      rw [show (p.1 != token) = true by simpa using h]
      simp only [List.lookup]
      rw [show (token == p.1) = false by simpa using fun e => h e.symm]
      exact ih

/-! ## Claim theorems -/

/-- C1: the spec claims that an `im.message.receive_v1` event whose
signature does not match the canonical HMAC is rejected with a
401-equivalent failure, produces no store mutation and is not processed.
The feishu.js `_handleWebhook` instead accepts any present signature value
unexamined (the `_verifySignature` call is commented out as a
temporary-testing measure), and with a verification token configured a
forged signature `"forged-signature-value"` leads to the message being fully
processed: the webhook answers ok and the command is injected into the
bound tmux session. -/
theorem C1_forged_signature_is_processed :
    FJ.handleWebhook cfg0 injAlways store1 5 ev1 (some "forged-signature-value")
      = (.okResp, ⟨["✅ 命令执行成功"], store1, [("ls -la", "claude-session")]⟩) := by
  decide

/-- C2: the spec claims `commandCount <= maxCommands` is enforced — that
each validated inbound command increments the session's counter and that
once `maxCommands = 10` is reached the next command is refused as
BudgetExceeded with status `exhausted`.  The Feishu session record written
by `_saveSession` carries no counter, budget or status field at all, and
`FeishuChannel.handleCommand` never refuses on any budget: eleven
consecutive validated commands on the same session all succeed and leave
the store unchanged. -/
theorem C2_no_command_budget :
    runCommands injAlways 5 "/cmd ABCD1234 echo hi" 11 store1
      = (List.replicate 11 true, store1) := by
  decide

/-- C3: the spec claims that `/cmd <token> <command>` from an authenticated
sender on a live session leads to the command being injected and an ok
acknowledgment.  The webhook.js pipeline instead passes only the command
text (`parsedCommand.command`) to `FeishuChannel.handleCommand`, which
re-parses it, finds no `/cmd`/`Token` keyword, and fails: on a live session
for `ABCD1234` the inbound text `/cmd ABCD1234 ls -la` yields the failure
acknowledgment and no injection at all. -/
theorem C3_webhook_command_never_injected :
    WH.handleTextMessage cfg0 injAlways store1 5 "/cmd ABCD1234 ls -la" sndU1
      = ⟨["❌ 命令执行失败，请检查token是否有效"], store1, []⟩ := by
  decide

/-- C6: the spec claims that when sending the originating notification
fails, the created session is rolled back so that no stored session or
session-map entry remains.  `EmailChannel._sendImpl` removes only the
per-session file — the `session-map.json` entry for the token survives —
and `FeishuChannel._sendImpl` performs no rollback at all, leaving the
session record in the store after a failed send. -/
theorem C6_rollback_leaves_entries :
    (emailSendImpl ⟨[], []⟩ 0 "sid-1" "TOK45678" "claude-session" false
      = (false, ⟨[], [("TOK45678", ⟨"sid-1", "claude-session", 86400⟩)]⟩))
    ∧ (feishuSendImpl [] 0 "ABCD1234" "U1" "user" false).1 = false
    ∧ List.lookup "ABCD1234" (feishuSendImpl [] 0 "ABCD1234" "U1" "user" false).2
        = some ⟨"ABCD1234", 0, 86400000, "feishu", "U1", "user", some "claude-session"⟩ := by
  decide

/-- Every base-36 digit uppercases into the `[A-Z0-9]` alphabet. -/
theorem base36UpperChar_isTokenChar : ∀ d : Fin 36, isTokenChar (base36UpperChar d) = true := by
  decide

/-- Every character of the email token alphabet is in `[A-Z0-9]`. -/
theorem emailTokenChars_isTokenChar : ∀ c ∈ emailTokenChars, isTokenChar c = true := by
  decide

/-- C4 counterexample: the claim that every generated token has exactly 8
characters fails for `FeishuChannel._generateSessionToken` — when
`Math.random()` returns 0.5, whose base-36 representation is `0.i`,
`substring(2, 10).toUpperCase()` is the single character `I`. -/
theorem C4_feishu_token_too_short :
    generateSessionToken [(18 : Fin 36)] = "I"
    ∧ (generateSessionToken [(18 : Fin 36)]).length = 1 := by
  decide

/-- C4 as amended: every generated token consists only of `[A-Z0-9]`
characters and has at most 8 of them; `EmailChannel._generateToken` always
produces exactly 8, while `FeishuChannel._generateSessionToken` produces
fewer when the random value's shortest base-36 expansion has fewer than 8
fractional digits. -/
theorem C4_amended_token_alphabet (frac : List (Fin 36)) (picks : Fin 8 → Fin 36) :
    (generateSessionToken frac).length ≤ 8
    ∧ (generateSessionToken frac).toList.all isTokenChar = true
    ∧ (emailGenerateToken picks).length = 8
    ∧ (emailGenerateToken picks).toList.all isTokenChar = true := by
  refine ⟨?_, ?_, ?_, ?_⟩
  · simp only [generateSessionToken, String.length, String.mk, List.length_map,
      List.length_take]
    exact Nat.min_le_left _ _
  · simp only [generateSessionToken, String.toList, String.mk, List.all_eq_true]
    intro c hc
    rcases List.mem_map.mp hc with ⟨d, _, rfl⟩
    exact base36UpperChar_isTokenChar d
  · simp [emailGenerateToken, String.length]
  · simp only [emailGenerateToken, String.toList, String.mk, List.all_eq_true]
    intro c hc
    rcases List.mem_map.mp hc with ⟨d, _, rfl⟩
    exact emailTokenChars_isTokenChar _ (List.get_mem _ _ _)

/-- C5 counterexample: the claim says lookup never returns a record whose
`expiresAt <= now`, but `_loadSession` only treats `Date.now() > expiresAt`
as expired: at the boundary `now = expiresAt` the record is returned. -/
theorem C5_boundary_returns_record :
    (loadSession store1 1000000 "ABCD1234").1 = some sess1
    ∧ sess1.expiresAt ≤ 1000000 := by
  decide

/-- C5 as amended: lookup never returns a record whose `expiresAt < now` —
for every stored session strictly past its expiry, `_loadSession` deletes
the underlying record and returns not-found, and a second lookup of the
same token is also not-found. -/
theorem C5_amended_expired_lookup_deletes (store : SessionStore) (token : String)
    (now : Nat) (s : FeishuSession) (h1 : List.lookup token store = some s)
    (h2 : s.expiresAt < now) :
    loadSession store now token = (none, eraseSession store token)
    ∧ (loadSession (eraseSession store token) now token).1 = none := by
  constructor
  · simp [loadSession, h1, h2]
  · simp [loadSession, lookup_eraseSession]

/-- Witness for C5: on the concrete store at `now` one past the expiry, the
lookup deletes and a repeat lookup misses. -/
theorem C5_amended_expired_lookup_deletes_witness :
    loadSession store1 1000001 "ABCD1234" = (none, eraseSession store1 "ABCD1234")
    ∧ (loadSession (eraseSession store1 "ABCD1234") 1000001 "ABCD1234").1 = none :=
  C5_amended_expired_lookup_deletes store1 "ABCD1234" 1000001 sess1 (by decide) (by decide)

/-- C7: the command parser recognizes both surface syntaxes —
`/cmd ABCD1234 hello` and `Token ABCD1234 hello` both parse to the token
`ABCD1234` with command `hello` — and an input without either keyword,
`abcd1234 do it`, does not match. -/
theorem C7_parser_two_syntaxes :
    parseCommand "/cmd ABCD1234 hello" = some ⟨"ABCD1234", "hello"⟩
    ∧ parseCommand "Token ABCD1234 hello" = some ⟨"ABCD1234", "hello"⟩
    ∧ parseCommand "abcd1234 do it" = none := by
  decide

/-- Soundness of the sender fallback scan: any session it returns belongs to
the queried sender and has not passed its expiry. -/
theorem findActiveSession_sound (now : Nat) (sid : String) :
    ∀ (store : SessionStore) (s : FeishuSession),
      (WH.findActiveSession now (some sid) store).1 = some s →
      s.receiveId = sid ∧ now ≤ s.expiresAt := by
  intro store
  induction store with
  | nil => intro s h; simp [WH.findActiveSession] at h
  | cons p rest ih =>
    intro s h
    rcases p with ⟨k, s1⟩
    simp only [WH.findActiveSession] at h
    by_cases he : s1.expiresAt < now
    · rw [if_pos he] at h
      exact ih s h
    · rw [if_neg he] at h
      by_cases hr : some s1.receiveId = some sid
      · rw [if_pos hr] at h
        simp only [Option.some.injEq] at h hr
        exact h ▸ ⟨hr, Nat.le_of_not_lt he⟩
      · rw [if_neg hr] at h
        exact ih s h

/-- Completeness of the miss case: when no stored session both belongs to
the sender and is still live, the fallback scan finds nothing. -/
theorem findActiveSession_miss (now : Nat) (sid : String) :
    ∀ store : SessionStore,
      (∀ p ∈ store, p.2.receiveId = sid → p.2.expiresAt < now) →
      (WH.findActiveSession now (some sid) store).1 = none := by
  intro store
  induction store with
  | nil => intro _; rfl
  | cons p rest ih =>
    intro h
    rcases p with ⟨k, s1⟩
    simp only [WH.findActiveSession]
    by_cases he : s1.expiresAt < now
    · rw [if_pos he]
      exact ih fun q hq => h q (List.mem_cons_of_mem _ hq)
    · rw [if_neg he]
      have hr : ¬ some s1.receiveId = some sid := by
        intro hc
        simp only [Option.some.injEq] at hc
        exact he (h (k, s1) (List.mem_cons_self _ _) hc)
      rw [if_neg hr]
      exact ih fun q hq => h q (List.mem_cons_of_mem _ hq)

/-- C8: when an inbound message has no parsable token, the sender-fallback
`_findActiveSession` returns only sessions whose stored `receiveId` equals
the authenticated sender's id and whose expiry has not passed; and for a
sender with no such session the fallback yields no session, so
`_handleDirectCommand` injects nothing and sends only the no-session help
message. -/
theorem C8_sender_fallback_only_own_sessions (store : SessionStore) (now : Nat)
    (sid : String) :
    (∀ s, (WH.findActiveSession now (some sid) store).1 = some s →
        s.receiveId = sid ∧ now ≤ s.expiresAt)
    ∧ ((∀ p ∈ store, p.2.receiveId = sid → p.2.expiresAt < now) →
        (WH.findActiveSession now (some sid) store).1 = none
        ∧ ∀ (inject : String → String → Bool) (text : String) (sender : Sender),
            senderIdOf sender = some sid →
            WH.handleDirectCommand inject store now text sender
              = ⟨["❌ 无有效的会话，请先等待Claude完成任务后回复"],
                 (WH.findActiveSession now (some sid) store).2, []⟩) := by
  refine ⟨fun s h => findActiveSession_sound now sid store s h, fun hmiss => ⟨findActiveSession_miss now sid store hmiss, ?_⟩⟩
  intro inject text sender hsender
  have hm := findActiveSession_miss now sid store hmiss
  simp only [WH.handleDirectCommand, hsender]
  generalize WH.findActiveSession now (some sid) store = r at hm ⊢
  obtain ⟨os, st⟩ := r
  cases os with
  | none => rfl
  | some s => simp at hm

/-- Witness for C8: the concrete store holds only a session of `U1`, so the
fallback for `U2` misses and the direct-command path injects nothing. -/
theorem C8_sender_fallback_only_own_sessions_witness :
    (WH.findActiveSession 5 (some "U2") store1).1 = none
    ∧ WH.handleDirectCommand injAlways store1 5 "do it" sndU2
        = ⟨["❌ 无有效的会话，请先等待Claude完成任务后回复"],
           (WH.findActiveSession 5 (some "U2") store1).2, []⟩ := by
  have h := C8_sender_fallback_only_own_sessions store1 5 "U2"
  have hpre : ∀ p ∈ store1, p.2.receiveId = "U2" → p.2.expiresAt < 5 := by decide
  exact ⟨(h.2 hpre).1, (h.2 hpre).2 injAlways "do it" sndU2 (by decide)⟩

/-- C9 counterexample: the claim says no rejection is a silent drop, in
particular a message from a non-whitelisted sender; but with whitelist
`[U1]` a valid command message from `U2` produces no response at all —
`_handleTextMessage` returns after the failed `_validateSender` with only a
log line. -/
theorem C9_unauthorized_sender_silently_dropped :
    WH.handleTextMessage cfgW injAlways store1 5 "/cmd ABCD1234 ls -la" sndU2
      = ⟨[], store1, []⟩ := by
  decide

/-- C9 as amended: rejection paths reached after sender validation each send
exactly one human-readable reason message through the channel, but a
message from a non-whitelisted sender is dropped with no channel response. -/
theorem C9_amended_response_behavior (cfg : Config) (inject : String → String → Bool)
    (store : SessionStore) (now : Nat) (text : String) (sender : Sender) :
    (validateSender cfg sender = false →
      WH.handleTextMessage cfg inject store now text sender = ⟨[], store, []⟩)
    ∧ (validateSender cfg sender = true →
      (WH.handleTextMessage cfg inject store now text sender).responses.length = 1) := by
  constructor
  · intro h
    simp only [WH.handleTextMessage]
    rw [if_pos (by simp [h])]
  · intro h
    simp only [WH.handleTextMessage]
    rw [if_neg (by simp [h])]
    cases hp : parseCommand (trimJS text) with
    | some p =>
      simp only [WH.handleCommand]
      split <;> rfl
    | none =>
      simp only [WH.handleDirectCommand]
      rcases hf : WH.findActiveSession now (senderIdOf sender) store with ⟨os, st⟩
      cases os with
      | some s =>
        simp only []
        split <;> rfl
      | none => rfl

/-- Witness for C9: with an empty whitelist the sender validates and a
tokenless message still gets exactly one response. -/
theorem C9_amended_response_behavior_witness :
    validateSender cfg0 sndU1 = true
    ∧ (WH.handleTextMessage cfg0 injAlways store1 5 "hello" sndU1).responses.length = 1 :=
  ⟨by decide, (C9_amended_response_behavior cfg0 injAlways store1 5 "hello" sndU1).2 (by decide)⟩

/-- A card button value carrying a default command. -/
def cardBtn1 : FJ.CardAction :=
  ⟨some ⟨some "/cmd", some "ABCD1234", some "git status"⟩, none, none, none, none⟩

/-- A card form submission whose first matching field trims to empty while
the later `command` field carries a command. -/
def cardFormLater : FJ.CardAction :=
  ⟨some ⟨some "/cmd", some "ABCD1234", none⟩,
   some [("command_input", .obj "  "), ("command", .obj "ls")], none, none, none⟩

/-- A card form submission with a command in the canonical `command_input`
field (the field the card built by `_formatMessage` uses). -/
def cardFormInput : FJ.CardAction :=
  ⟨some ⟨some "/cmd", some "ABCD1234", none⟩,
   some [("command_input", .obj " run tests ")], none, none, none⟩

/-- C10 counterexample: the claim says every card action carrying a
form-input command gets that command injected, but `_handleCardAction`'s
field loop stops at the first present field — here `command_input`, whose
value trims to empty — and the first-field fallback re-reads the same
field, so the command `ls` carried in the later `command` field (itself one
of the recognized field names) is never injected: the handler answers the
invalid-input message and performs no injection, despite the live session. -/
theorem C10_form_later_field_ignored :
    FJ.handleCardAction cfg0 injAlways store1 5 (some cardFormLater)
      = ⟨["❌ 请输入有效的指令"], store1, []⟩ := by
  decide

/-- C10 as amended: the `card.action.trigger` path never consults the sender
whitelist — `_handleCardAction` behaves identically under any configured
whitelist — and for a button value with `cmd = /cmd`, a token and a
command, the command is injected into the terminal session bound to the
token (whenever the session is live), even though text and interactive
messages are gated by `_validateSender`.  A form-input command is injected
when the handler's field extraction finds it, i.e. when
`extractFormCommand` yields a non-empty string (the first present field
among `command_input`/`command`/`input` trims non-empty); a form whose
first present field trims to empty is answered with the invalid-input
message and nothing is injected, even if a later field carries a command. -/
theorem C10_card_action_bypasses_whitelist (cfg : Config) (w1 w2 : List String)
    (inject : String → String → Bool) (store : SessionStore) (now : Nat)
    (act : Option FJ.CardAction) :
    FJ.handleCardAction { cfg with whitelist := w1 } inject store now act
      = FJ.handleCardAction { cfg with whitelist := w2 } inject store now act
    ∧ (∀ (tok cmdStr : String) (s : FeishuSession), tok ≠ "" → cmdStr ≠ "" →
        List.lookup tok store = some s → ¬ s.expiresAt < now →
        (FJ.handleCardAction cfg inject store now
            (some ⟨some ⟨some "/cmd", some tok, some cmdStr⟩, none, none, none, none⟩)).injections
          = [(cmdStr, s.conversationContext.getD "claude-session")])
    ∧ ∀ (tok : String) (fd : List (String × FJ.FormVal)) (s : FeishuSession), tok ≠ "" →
        FJ.extractFormCommand ⟨some ⟨some "/cmd", some tok, none⟩, some fd, none, none, none⟩
            ⟨some "/cmd", some tok, none⟩ ≠ "" →
        List.lookup tok store = some s → ¬ s.expiresAt < now →
        (FJ.handleCardAction cfg inject store now
            (some ⟨some ⟨some "/cmd", some tok, none⟩, some fd, none, none, none⟩)).injections
          = [(FJ.extractFormCommand ⟨some ⟨some "/cmd", some tok, none⟩, some fd, none, none, none⟩
                ⟨some "/cmd", some tok, none⟩,
              s.conversationContext.getD "claude-session")] := by
  refine ⟨rfl, ?_, ?_⟩
  · intro tok cmdStr s htok hcmd hlk hexp
    have ht : FJ.truthy (some tok) = true := by simp [FJ.truthy, htok]
    have hc : FJ.truthy (some cmdStr) = true := by simp [FJ.truthy, hcmd]
    simp only [FJ.handleCardAction]
    rw [if_pos ⟨trivial, ht, hc⟩]
    simp only [FJ.handleCommand, loadSession, Option.getD_some, hlk]
    rw [if_neg hexp]
    by_cases hi : inject cmdStr (s.conversationContext.getD "claude-session") = true
    · simp [hi]
    · simp [hi]
  · intro tok fd s htok hex hlk hexp
    have ht : FJ.truthy (some tok) = true := by simp [FJ.truthy, htok]
    simp only [FJ.handleCardAction]
    rw [if_neg (by simp [FJ.truthy])]
    rw [if_pos ⟨trivial, ht⟩]
    rw [if_pos hex]
    simp only [FJ.handleCommand, loadSession, Option.getD_some, hlk]
    rw [if_neg hexp]
    by_cases hi : inject
        (FJ.extractFormCommand ⟨some ⟨some "/cmd", some tok, none⟩, some fd, none, none, none⟩
          ⟨some "/cmd", some tok, none⟩)
        (s.conversationContext.getD "claude-session") = true
    · simp [hi]
    · simp [hi]

/-- Witness for C10: on the concrete store, the button command and the
canonical `command_input` form command are both injected, and the result is
the same with and without a whitelist. -/
theorem C10_card_action_bypasses_whitelist_witness :
    FJ.handleCardAction { cfg0 with whitelist := [] } injAlways store1 5 (some cardBtn1)
      = FJ.handleCardAction { cfg0 with whitelist := ["U9"] } injAlways store1 5 (some cardBtn1)
    ∧ (FJ.handleCardAction cfg0 injAlways store1 5 (some cardBtn1)).injections
        = [("git status", "claude-session")]
    ∧ (FJ.handleCardAction cfg0 injAlways store1 5 (some cardFormInput)).injections
        = [("run tests", "claude-session")] := by
  have h := C10_card_action_bypasses_whitelist cfg0 [] ["U9"] injAlways store1 5 (some cardBtn1)
  refine ⟨h.1, h.2.1 "ABCD1234" "git status" sess1 (by decide) (by decide) (by decide) (by decide), ?_⟩
  have h3 := h.2.2 "ABCD1234" [("command_input", .obj " run tests ")] sess1
    (by decide) (by decide) (by decide) (by decide)
  simpa using h3

end CodexRemote
